import Mathlib

/-!
Shallow embedding of `src/simulation/market_simulator.py`
(class `CoffeeMarketSimulator`) from the Procurement Multi-Agent System.

Modelling conventions:
* Python floats (prices, scores, random draws) are modelled as rationals;
  `round(x, n)` becomes rounding to the nearest multiple of `10 ^ (-n)`.
* Dates are integers counting simulated days; `timedelta(days = 1)` is `+ 1`
  and `(a - b).days` is exact integer subtraction at day granularity.
* Every call into Python's `random` module is replaced by an oracle value
  carried in a `StepRand` record.  Theorems quantify over the oracle and add
  the range facts guaranteed by the corresponding `random` primitive
  (`random.random() ∈ [0,1)`, `random.randint(a,b) ∈ [a,b]`, `choice` and
  `randint` indices in range) only where a claim needs them.
* Code that can raise (`datetime` parsing in `_update_orders`, the dict key
  access in `update_order_expected_delivery`) is modelled in `Except` /
  error-option style.
-/

namespace Sim

/-- Python `round(x, 2)` (round to cents), modelled on the rationals. -/
def round2 (q : ℚ) : ℚ := (round (q * 100) : ℚ) / 100

/-- Python `round(x, 1)` (round to one decimal place), modelled on the rationals. -/
def round1 (q : ℚ) : ℚ := (round (q * 10) : ℚ) / 10

/-- Python `int(x)`: truncation toward zero. -/
def pyInt (q : ℚ) : ℤ := if q < 0 then ⌈q⌉ else ⌊q⌋

/-- A delivery-date string, partitioned by how the two parsers in
`_update_orders` treat it: `parsableIso d` — `datetime.fromisoformat`
succeeds (after the `Z`-strip) and denotes day `d`; `parsableYmd d` —
`fromisoformat` raises `ValueError` but `strptime(s, "%Y-%m-%d")` succeeds;
`malformed` — both fail, so the `except ValueError` handler itself raises. -/
inductive DateStr
  | parsableIso (d : ℤ)
  | parsableYmd (d : ℤ)
  | malformed
  deriving DecidableEq

/-- The Python exceptions the embedded methods can raise. -/
inductive PyErr
  | valueError
  | keyError
  deriving DecidableEq

/-- The date-parsing block of `_update_orders` (lines 214-223): try
`fromisoformat` (with `Z` stripped), on `ValueError` fall back to
`strptime("%Y-%m-%d")`; a string neither accepts raises `ValueError`. -/
def parseDate : DateStr → Except PyErr ℤ
  | .parsableIso d => .ok d
  | .parsableYmd d => .ok d
  | .malformed => .error .valueError

structure PricePoint where
  date : ℤ
  price : ℚ
  deriving DecidableEq

structure Factor where
  name : String
  status : String
  impact : String
  details : String
  deriving DecidableEq

structure Forecast where
  short_term : String
  long_term : String
  deriving DecidableEq

structure MarketConditions where
  date : ℤ
  average_price : ℚ
  price_trend : String
  price_history : List PricePoint
  regional_prices : List (String × ℚ)
  bean_prices : List (String × ℚ)
  market_factors : List Factor
  forecast : Forecast
  deriving DecidableEq

structure Supplier where
  id : String
  name : String
  region : String
  bean_types : List String
  quality_score : ℚ
  reliability_score : ℚ
  sustainability_score : ℚ
  capacity_kg_per_year : ℤ
  deriving DecidableEq

structure Contract where
  id : String
  supplier_id : String
  supplier_name : String
  status : String
  start_date : ℤ
  end_date : ℤ
  price_per_pound : ℚ
  volume_min_lbs : ℕ
  volume_max_lbs : ℕ
  bean_types : List String
  payment_terms : String
  delivery_terms : String
  quality_requirements : String
  sustainability_requirements : String
  deriving DecidableEq

structure Order where
  id : String
  status : String
  expected_delivery : Option DateStr
  expected_delivery_date : Option DateStr
  deriving DecidableEq

/-- The four-element list fed to `random.choice` in `_update_suppliers`. -/
inductive SupplierUpdateType
  | quality | reliability | sustainability | capacity
  deriving DecidableEq

structure SupplierChange where
  id : String
  name : String
  update_type : SupplierUpdateType
  old_value : ℚ
  new_value : ℚ
  deriving DecidableEq

inductive ContractChange
  | add (contract_id : String)
  | update_status (contract_id old_status new_status : String)
  | created (id supplier : String)
  deriving DecidableEq

inductive OrderChange
  | status_change (id old_status new_status : String)
  | delay_change (id old_status new_status : String) (delay_days : ℕ)
  | created (id supplier : String) (volume : ℚ)
  | update_status (order_id old_status new_status : String)
  | update_delivery (order_id : String) (old_delivery new_delivery : DateStr)
  deriving DecidableEq

structure MarketChange where
  new_price : ℚ
  old_price : ℚ
  change_pct : ℚ
  deriving DecidableEq

/-- The per-step change-log `self.changes`. -/
structure Changes where
  suppliers : List SupplierChange
  contracts : List ContractChange
  orders : List OrderChange
  market_conditions : Option MarketChange
  deriving DecidableEq

/-- The reset value assigned to `self.changes` (constructor and start of
`simulate_step`): empty lists and an empty market dict. -/
def emptyChanges : Changes := ⟨[], [], [], none⟩

/-- The simulator's mutable state. -/
structure SimState where
  suppliers : List Supplier
  contracts : List Contract
  orders : List Order
  market_conditions : MarketConditions
  simulation_date : ℤ
  simulation_step : ℕ
  changes : Changes
  deriving DecidableEq

/-- Oracle for all random draws consumed by one `simulate_step` call.
The per-order draws are indexed by the order's position in the list. -/
structure StepRand where
  changePct : ℚ
  regionalNoise : String → ℚ
  beanNoise : String → ℚ
  factorDraw : ℚ
  factorIdx : ℕ
  factorStatus : String
  factorImpact : String
  factorDetails : String
  forecastDraw : ℚ
  forecastShort : String
  forecastLong : String
  orderR1 : ℕ → ℚ
  orderR2 : ℕ → ℚ
  orderDelay : ℕ → ℕ
  orderResume : ℕ → ℚ
  supplierDraw : ℚ
  supplierIdx : ℕ
  updateType : SupplierUpdateType
  scoreChange : ℚ
  capacityPct : ℚ
  contractDraw : ℚ
  contractSupplierIdx : ℕ
  contractDuration : ℕ
  volumeMin : ℕ
  volumeMax : ℕ
  paymentTerms : String
  deliveryTerms : String
  sustainabilityReq : String
  nowStamp : String

/-- `_update_market_conditions` (lines 76-194).  The sampled `change_pct`
comes from the oracle (its sampling range depends on the current trend but
its value is always just a draw); regional and bean noises are the extra
`random.uniform(-0.01, 0.01)` draws, keyed by map entry name. -/
def _update_market_conditions (s : SimState) (r : StepRand) : SimState :=
  let mc := s.market_conditions
  let current_price := mc.average_price
  let change_pct := r.changePct
  let new_price0 := round2 (current_price * (1 + change_pct))
  let new_price := max 3 (min 10 new_price0)
  let hist1 := mc.price_history ++ [⟨s.simulation_date, new_price⟩]
  let hist2 := if hist1.length > 30 then hist1.drop (hist1.length - 30) else hist1
  let trend :=
    if 5 ≤ hist2.length then
      let recent := hist2.drop (hist2.length - 5)
      let firstP := (recent.headD ⟨0, 0⟩).price
      let lastP := (recent.getLastD ⟨0, 0⟩).price
      if firstP * (102 / 100) < lastP then "Rising"
      else if lastP < firstP * (98 / 100) then "Falling"
      else "Stable"
    else mc.price_trend
  let regional := mc.regional_prices.map
    (fun kp => (kp.1, round2 (kp.2 * (1 + (change_pct + r.regionalNoise kp.1)))))
  let beans := mc.bean_prices.map
    (fun kp => (kp.1, round2 (kp.2 * (1 + (change_pct + r.beanNoise kp.1)))))
  let factors :=
    if r.factorDraw < 1 / 10 then
      match mc.market_factors.get? r.factorIdx with
      | some f =>
        let details :=
          if f.name = "Weather Conditions" ∨ f.name = "Political Stability" ∨
              f.name = "Global Demand"
          then r.factorDetails else f.details
        mc.market_factors.set r.factorIdx
          { f with status := r.factorStatus, impact := r.factorImpact, details := details }
      | none => mc.market_factors
    else mc.market_factors
  let fc : Forecast :=
    if r.forecastDraw < 1 / 20 then ⟨r.forecastShort, r.forecastLong⟩ else mc.forecast
  { s with
    market_conditions :=
      { mc with
        date := s.simulation_date
        average_price := new_price
        price_trend := trend
        price_history := hist2
        regional_prices := regional
        bean_prices := beans
        market_factors := factors
        forecast := fc }
    changes :=
      { s.changes with market_conditions := some ⟨new_price, current_price, change_pct⟩ } }

/-- The field-compatibility shim at the top of the `_update_orders` loop
(lines 206-212): prefer `expected_delivery`, fall back to
`expected_delivery_date`; if neither key is present the order is skipped. -/
def resolveDateField (o : Order) : Option DateStr :=
  match o.expected_delivery with
  | some ds => some ds
  | none => o.expected_delivery_date

/-- The body of the `_update_orders` loop for one order at index `i`
(lines 200-273). -/
def stepOrder (simDate : ℤ) (r : StepRand) (i : ℕ) (o : Order) :
    Except PyErr (Order × List OrderChange) :=
  if o.status = "delivered" ∨ o.status = "cancelled" then .ok (o, [])
  else
    match resolveDateField o with
    | none => .ok (o, [])
    | some ds =>
      match parseDate ds with
      | .error e => .error e
      | .ok d =>
      -- `days_until_delivery` is `d - simDate`; the delayed branch pushes the
      -- parsed date forward by `orderDelay i` days and writes it back to
      -- whichever of the two date fields the order carries.
      if o.status = "pending" ∧ d - simDate ≤ 30 then
        if r.orderR1 i < 4 / 5 then
          .ok ({ o with status := "in_transit" },
               [.status_change o.id "pending" "in_transit"])
        else if r.orderR2 i < 1 / 2 then
          .ok ((if o.expected_delivery.isSome then
                  { o with
                    status := "delayed"
                    expected_delivery :=
                      some (.parsableIso (d + (r.orderDelay i : ℤ))) }
                else if o.expected_delivery_date.isSome then
                  { o with
                    status := "delayed"
                    expected_delivery_date :=
                      some (.parsableIso (d + (r.orderDelay i : ℤ))) }
                else { o with status := "delayed" }),
               [.delay_change o.id "pending" "delayed" (r.orderDelay i)])
        else .ok (o, [])
      else if o.status = "in_transit" ∧ d - simDate ≤ 0 then
        .ok ({ o with status := "delivered" },
             [.status_change o.id "in_transit" "delivered"])
      else if o.status = "delayed" then
        if r.orderResume i < 3 / 10 then
          .ok ({ o with status := "in_transit" },
               [.status_change o.id "delayed" "in_transit"])
        else .ok (o, [])
      else .ok (o, [])

/-- The `for i, order in enumerate(self.orders)` loop of `_update_orders`,
starting from index `i`.  An uncaught `ValueError` propagates. -/
def updateOrdersFrom (simDate : ℤ) (r : StepRand) :
    ℕ → List Order → Except PyErr (List Order × List OrderChange)
  | _, [] => .ok ([], [])
  | i, o :: rest =>
    match stepOrder simDate r i o with
    | .error e => .error e
    | .ok oc =>
      match updateOrdersFrom simDate r (i + 1) rest with
      | .error e => .error e
      | .ok restc => .ok (oc.1 :: restc.1, oc.2 ++ restc.2)

/-- `_update_orders` (lines 196-273), returning the new order list and the
order-change entries it appends. -/
def _update_orders (simDate : ℤ) (r : StepRand) (orders : List Order) :
    Except PyErr (List Order × List OrderChange) :=
  updateOrdersFrom simDate r 0 orders

/-- `_update_suppliers` (lines 275-325): perturb one attribute of one
randomly chosen supplier.  `random.randint(0, len - 1)` always produces an
in-range index, so the `none` branch is unreachable for the oracles the
code actually draws. -/
def _update_suppliers (s : SimState) (r : StepRand) : SimState :=
  if s.suppliers.length > 0 then
    match s.suppliers.get? r.supplierIdx with
    | none => s
    | some sup =>
      match r.updateType with
      | .quality =>
        let oldv := sup.quality_score
        let newv := round1 (max 5 (min 10 (oldv + r.scoreChange)))
        { s with
          suppliers := s.suppliers.set r.supplierIdx { sup with quality_score := newv }
          changes := { s.changes with
            suppliers := s.changes.suppliers ++ [⟨sup.id, sup.name, .quality, oldv, newv⟩] } }
      | .reliability =>
        let oldv := sup.reliability_score
        let newv := round1 (max 5 (min 10 (oldv + r.scoreChange)))
        { s with
          suppliers := s.suppliers.set r.supplierIdx { sup with reliability_score := newv }
          changes := { s.changes with
            suppliers := s.changes.suppliers ++ [⟨sup.id, sup.name, .reliability, oldv, newv⟩] } }
      | .sustainability =>
        let oldv := sup.sustainability_score
        let newv := round1 (max 5 (min 10 (oldv + r.scoreChange)))
        { s with
          suppliers := s.suppliers.set r.supplierIdx { sup with sustainability_score := newv }
          changes := { s.changes with
            suppliers := s.changes.suppliers ++ [⟨sup.id, sup.name, .sustainability, oldv, newv⟩] } }
      | .capacity =>
        let oldv := sup.capacity_kg_per_year
        let newv := pyInt ((oldv : ℚ) * (1 + r.capacityPct))
        { s with
          suppliers := s.suppliers.set r.supplierIdx { sup with capacity_kg_per_year := newv }
          changes := { s.changes with
            suppliers := s.changes.suppliers ++
              [⟨sup.id, sup.name, .capacity, (oldv : ℚ), (newv : ℚ)⟩] } }
  else s

/-- `_create_sample_contract` (lines 560-619).  `random.choice` always
returns an existing element, so the `none` branch is unreachable for the
oracles the code actually draws. -/
def _create_sample_contract (s : SimState) (r : StepRand) : SimState :=
  if s.suppliers.isEmpty then s
  else
    match s.suppliers.get? r.contractSupplierIdx with
    | none => s
    | some sup =>
      let contract_id := "contract_" ++ sup.id ++ "_" ++ r.nowStamp
      let start_date := s.simulation_date
      let end_date := start_date + (r.contractDuration : ℤ)
      let base_price := s.market_conditions.average_price
      let quality_factor := sup.quality_score / 10
      let contract_price := round2 (base_price * (9 / 10 + quality_factor * (3 / 10)))
      let c : Contract :=
        { id := contract_id
          supplier_id := sup.id
          supplier_name := sup.name
          status := "active"
          start_date := start_date
          end_date := end_date
          price_per_pound := contract_price
          volume_min_lbs := r.volumeMin
          volume_max_lbs := r.volumeMax
          bean_types := sup.bean_types
          payment_terms := r.paymentTerms
          delivery_terms := r.deliveryTerms
          quality_requirements := "SCA score 80+"
          sustainability_requirements := r.sustainabilityReq }
      { s with
        contracts := s.contracts ++ [c]
        changes := { s.changes with
          contracts := s.changes.contracts ++ [.created contract_id sup.name] } }

/-- Lines 47-59 of `simulate_step`: increment the step counter, advance the
simulated date by one day, and reset the change-log. -/
def bumpState (s : SimState) : SimState :=
  { s with
    simulation_step := s.simulation_step + 1
    simulation_date := s.simulation_date + 1
    changes := emptyChanges }

/-- The state after line 62 of `simulate_step`. -/
def afterMarket (s : SimState) (r : StepRand) : SimState :=
  _update_market_conditions (bumpState s) r

/-- Fold the result of `_update_orders` back into the state (the in-place
list mutations and `self.changes["orders"]` appends of lines 196-273). -/
def afterOrders (s2 : SimState) (oc : List Order × List OrderChange) : SimState :=
  { s2 with
    orders := oc.1
    changes := { s2.changes with orders := s2.changes.orders ++ oc.2 } }

/-- Lines 67-69 of `simulate_step`: supplier drift with probability 0.2. -/
def afterDrift (s3 : SimState) (r : StepRand) : SimState :=
  if r.supplierDraw < 1 / 5 then _update_suppliers s3 r else s3

/-- Lines 71-74 of `simulate_step`: if no contract is `active`, create a
sample contract with probability 0.5. -/
def afterFallback (s4 : SimState) (r : StepRand) : SimState :=
  if (s4.contracts.filter (fun c => c.status = "active")).length = 0 then
    if r.contractDraw < 1 / 2 then _create_sample_contract s4 r else s4
  else s4

/-- `simulate_step` (lines 43-74): bump step and date, reset the change-log,
then market conditions → orders → (20% chance) supplier drift → contract
fallback, in that order.  An uncaught `ValueError` from the order-date
parsing propagates out of the call. -/
def simulate_step (s : SimState) (r : StepRand) : Except PyErr SimState :=
  (_update_orders (afterMarket s r).simulation_date r (afterMarket s r).orders).map
    (fun oc => afterFallback (afterDrift (afterOrders (afterMarket s r) oc) r) r)

/-- Iterated `simulate_step` over a list of per-step oracles. -/
def simulate_steps : SimState → List StepRand → Except PyErr SimState
  | s, [] => .ok s
  | s, r :: rs => (simulate_step s r).bind (fun s2 => simulate_steps s2 rs)

/-- `get_changes` (lines 459-466); the deep copy is value-identical to the
field (aliasing is treated in the heap model below). -/
def get_changes (s : SimState) : Changes := s.changes

/-- `get_suppliers` (lines 327-334) as a value-level read. -/
def get_suppliers (s : SimState) : List Supplier := s.suppliers

/-- Outcome of the search loop in `update_order_expected_delivery`. -/
inductive UpdDelivOutcome
  | raised
  | updated (orders : List Order) (ch : OrderChange)
  | notFound
  deriving DecidableEq

/-- The `for i, order in enumerate(self.orders)` loop of
`update_order_expected_delivery` (lines 442-457).  For the first order whose
`id` matches, line 444 reads `order["expected_delivery"]` before anything is
written, so a missing key raises `KeyError` with no mutation; when the key
is present, that same key is the one updated (the `elif` on
`expected_delivery_date` is unreachable). -/
def updDelivAux (order_id : String) (expected_delivery : DateStr) :
    List Order → UpdDelivOutcome
  | [] => .notFound
  | o :: rest =>
    if o.id = order_id then
      match o.expected_delivery with
      | none => .raised
      | some old =>
        .updated ({ o with expected_delivery := some expected_delivery } :: rest)
          (.update_delivery order_id old expected_delivery)
    else
      match updDelivAux order_id expected_delivery rest with
      | .raised => .raised
      | .notFound => .notFound
      | .updated rest2 ch => .updated (o :: rest2) ch

/-- `update_order_expected_delivery` (lines 434-457).  The second component
records a raised `KeyError`; the first is the (possibly updated) state — on
a raise the state is returned exactly as it was, mirroring that the Python
exception fires before any assignment. -/
def update_order_expected_delivery (s : SimState) (order_id : String)
    (expected_delivery : DateStr) : SimState × Option PyErr :=
  match updDelivAux order_id expected_delivery s.orders with
  | .raised => (s, some .keyError)
  | .notFound => (s, none)
  | .updated orders2 ch =>
    ({ s with
        orders := orders2
        changes := { s.changes with orders := s.changes.orders ++ [ch] } }, none)

/-- Total wrapper: the state a successful `simulate_step` produces (used to
name concrete run results in witnesses; on an error it returns the input). -/
def stepResult (s : SimState) (r : StepRand) : SimState :=
  match simulate_step s r with
  | .ok v => v
  | .error _ => s

/-- Total wrapper for `simulate_steps`, as `stepResult`. -/
def stepsResult (s : SimState) (rs : List StepRand) : SimState :=
  match simulate_steps s rs with
  | .ok v => v
  | .error _ => s

/-- The market price bound `[3.0, 10.0]` enforced at line 99. -/
def priceOK (q : ℚ) : Prop := 3 ≤ q ∧ q ≤ 10

instance (q : ℚ) : Decidable (priceOK q) := by unfold priceOK; infer_instance

/-- The supplier score bound `[5.0, 10.0]` enforced at lines 294/301/308. -/
def scoreOK (q : ℚ) : Prop := 5 ≤ q ∧ q ≤ 10

instance (q : ℚ) : Decidable (scoreOK q) := by unfold scoreOK; infer_instance

/-- All three clamped score attributes of a supplier are in `[5.0, 10.0]`. -/
def scoresOK (sup : Supplier) : Prop :=
  scoreOK sup.quality_score ∧ scoreOK sup.reliability_score ∧
    scoreOK sup.sustainability_score

instance (sup : Supplier) : Decidable (scoresOK sup) := by
  unfold scoresOK; infer_instance

/-!
Heap model for the copy-on-read accessors (`get_suppliers`, `get_contracts`,
`get_orders`, `get_market_conditions`, lines 327-361, all of which return
`copy.deepcopy(collection)`).  Python objects live in a heap of addressed
nodes (lists, dicts, immutable primitives); `copy.deepcopy` recursively
rebuilds the object graph at fresh addresses; a caller mutating the
returned snapshot writes only at those fresh addresses.  Recursion is
fuel-bounded (the engine's object graphs are finite and acyclic).
-/

namespace HeapModel

abbrev Addr := ℕ

inductive PyVal
  | str (s : String)
  | rat (q : ℚ)
  deriving DecidableEq

/-- One heap cell: a primitive, a Python list, or a Python dict. -/
inductive Node
  | prim (v : PyVal)
  | lst (kids : List Addr)
  | dict (kids : List (String × Addr))
  deriving DecidableEq

/-- A heap is an association list of cells; the most recent binding for an
address wins, so prepending models an in-place write. -/
abbrev Heap := List (Addr × Node)

def lookup (h : Heap) (a : Addr) : Option Node :=
  match h.find? (fun p => p.1 = a) with
  | some p => some p.2
  | none => none

def write (h : Heap) (a : Addr) (n : Node) : Heap := (a, n) :: h

def writeAll (h : Heap) : List (Addr × Node) → Heap
  | [] => h
  | w :: ws => writeAll (write h w.1 w.2) ws

/-- The pure value denoted by an object graph. -/
inductive Tree
  | prim (v : PyVal)
  | lst (kids : List Tree)
  | dict (kids : List (String × Tree))

mutual

/-- Read off the value rooted at an address (fuel-bounded). -/
def extractNode : ℕ → Heap → Addr → Option Tree
  | 0, _, _ => none
  | f + 1, h, a =>
    match lookup h a with
    | none => none
    | some (.prim v) => some (.prim v)
    | some (.lst kids) => (extractList f h kids).map Tree.lst
    | some (.dict kids) => (extractDict f h kids).map Tree.dict
  termination_by structural f _ _ => f

def extractList : ℕ → Heap → List Addr → Option (List Tree)
  | 0, _, _ => none
  | _ + 1, _, [] => some []
  | f + 1, h, a :: as =>
    match extractNode f h a, extractList f h as with
    | some t, some ts => some (t :: ts)
    | _, _ => none
  termination_by structural f _ _ => f

def extractDict : ℕ → Heap → List (String × Addr) →
    Option (List (String × Tree))
  | 0, _, _ => none
  | _ + 1, _, [] => some []
  | f + 1, h, kv :: kvs =>
    match extractNode f h kv.2, extractDict f h kvs with
    | some t, some ts => some ((kv.1, t) :: ts)
    | _, _ => none
  termination_by structural f _ _ => f

end

mutual

/-- `copy.deepcopy`: rebuild the graph rooted at `a`, allocating every new
cell at a fresh address (`nxt` is the allocation cursor). -/
def copyNode : ℕ → Heap → ℕ → Addr → Option (Heap × ℕ × Addr)
  | 0, _, _, _ => none
  | f + 1, h, nxt, a =>
    match lookup h a with
    | none => none
    | some (.prim v) => some (write h nxt (.prim v), nxt + 1, nxt)
    | some (.lst kids) =>
      match copyList f h nxt kids with
      | none => none
      | some res => some (write res.1 res.2.1 (.lst res.2.2), res.2.1 + 1, res.2.1)
    | some (.dict kids) =>
      match copyDict f h nxt kids with
      | none => none
      | some res => some (write res.1 res.2.1 (.dict res.2.2), res.2.1 + 1, res.2.1)
  termination_by structural f _ _ _ => f

def copyList : ℕ → Heap → ℕ → List Addr → Option (Heap × ℕ × List Addr)
  | 0, _, _, _ => none
  | _ + 1, h, nxt, [] => some (h, nxt, [])
  | f + 1, h, nxt, a :: as =>
    match copyNode f h nxt a with
    | none => none
    | some res1 =>
      match copyList f res1.1 res1.2.1 as with
      | none => none
      | some res2 => some (res2.1, res2.2.1, res1.2.2 :: res2.2.2)
  termination_by structural f _ _ _ => f

def copyDict : ℕ → Heap → ℕ → List (String × Addr) →
    Option (Heap × ℕ × List (String × Addr))
  | 0, _, _, _ => none
  | _ + 1, h, nxt, [] => some (h, nxt, [])
  | f + 1, h, nxt, kv :: kvs =>
    match copyNode f h nxt kv.2 with
    | none => none
    | some res1 =>
      match copyDict f res1.1 res1.2.1 kvs with
      | none => none
      | some res2 => some (res2.1, res2.2.1, (kv.1, res1.2.2) :: res2.2.2)
  termination_by structural f _ _ _ => f

end

/-- Addresses a cell points to. -/
def nodeRefs : Node → List Addr
  | .prim _ => []
  | .lst kids => kids
  | .dict kids => kids.map Prod.snd

/-- All cells (and every address they reference) sit strictly below
`bound`: the engine's object graph before any allocation at `bound` or
beyond. -/
def closedBelow (bound : ℕ) (h : Heap) : Prop :=
  ∀ p ∈ h, p.1 < bound ∧ ∀ a ∈ nodeRefs p.2, a < bound

instance (bound : ℕ) (h : Heap) : Decidable (closedBelow bound h) := by
  unfold closedBelow; infer_instance

/-- The two heaps agree on every address below `bound`. -/
def agreeBelow (bound : ℕ) (h h2 : Heap) : Prop :=
  ∀ a, a < bound → lookup h2 a = lookup h a

/-- The engine as the heap model sees it: its object graph plus the root of
one of the collections an accessor returns (`self.suppliers` for
`get_suppliers`; the other accessors differ only in which root they pass to
`copy.deepcopy`). -/
structure PyEngine where
  heap : Heap
  suppliersRoot : Addr
  nextAddr : ℕ

/-- `get_suppliers` in the heap model: `copy.deepcopy(self.suppliers)`,
returning the engine with the enlarged heap and the address of the fresh
snapshot handed to the caller. -/
def get_suppliers_copy (e : PyEngine) (fuel : ℕ) : Option (PyEngine × Addr) :=
  match copyNode fuel e.heap e.nextAddr e.suppliersRoot with
  | none => none
  | some (h2, n2, c) => some ({ e with heap := h2, nextAddr := n2 }, c)

end HeapModel

/-! Concrete fixtures used by witnesses and counterexamples. -/

/-- A supplier with all scores inside `[5, 10]`. -/
def supW : Supplier :=
  { id := "sup1", name := "Alpha Coffee", region := "South America",
    bean_types := ["Arabica"], quality_score := 8, reliability_score := 7,
    sustainability_score := 9, capacity_kg_per_year := 50000 }

/-- An already-active contract (keeps the fallback path quiet). -/
def conW : Contract :=
  { id := "c1", supplier_id := "sup1", supplier_name := "Alpha Coffee",
    status := "active", start_date := 0, end_date := 90, price_per_pound := 5,
    volume_min_lbs := 5000, volume_max_lbs := 20000, bean_types := ["Arabica"],
    payment_terms := "Net 30", delivery_terms := "FOB",
    quality_requirements := "SCA score 80+",
    sustainability_requirements := "Organic Certified" }

/-- A minimal market snapshot with the average price at 5. -/
def mcW : MarketConditions :=
  { date := 0, average_price := 5, price_trend := "Stable", price_history := [],
    regional_prices := [], bean_prices := [], market_factors := [],
    forecast := ⟨"Stable prices likely", "Stable market"⟩ }

/-- A quiet oracle: zero price change, every optional branch skipped
(draws at 1 fail every `< p` test), order draws pick the 80% path. -/
def rW : StepRand :=
  { changePct := 0, regionalNoise := fun _ => 0, beanNoise := fun _ => 0,
    factorDraw := 1, factorIdx := 0, factorStatus := "Favorable",
    factorImpact := "Minimal", factorDetails := "", forecastDraw := 1,
    forecastShort := "", forecastLong := "", orderR1 := fun _ => 0,
    orderR2 := fun _ => 1, orderDelay := fun _ => 5, orderResume := fun _ => 1,
    supplierDraw := 1, supplierIdx := 0, updateType := .quality,
    scoreChange := 0, capacityPct := 0, contractDraw := 1,
    contractSupplierIdx := 0, contractDuration := 90, volumeMin := 5000,
    volumeMax := 15000, paymentTerms := "Net 30", deliveryTerms := "FOB",
    sustainabilityReq := "Organic Certified", nowStamp := "20250101000000" }

/-- Initial state for the C1 witness. -/
def sC1 : SimState :=
  { suppliers := [supW], contracts := [conW], orders := [],
    market_conditions := mcW, simulation_date := 0, simulation_step := 0,
    changes := emptyChanges }

/-- An order already in the absorbing `delivered` state. -/
def ordDelivered : Order :=
  { id := "o1", status := "delivered", expected_delivery := none,
    expected_delivery_date := none }

/-- Initial state for the C6 witness: one delivered order. -/
def sC6 : SimState :=
  { suppliers := [supW], contracts := [conW], orders := [ordDelivered],
    market_conditions := mcW, simulation_date := 0, simulation_step := 0,
    changes := emptyChanges }

/-- A pending order whose delivery date is 10 days after day 0. -/
def ordPendingC2 : Order :=
  { id := "o2", status := "pending", expected_delivery := some (.parsableIso 10),
    expected_delivery_date := none }

/-- Initial state for C2: one pending order due in 10 days. -/
def sC2 : SimState :=
  { suppliers := [supW], contracts := [conW], orders := [ordPendingC2],
    market_conditions := mcW, simulation_date := 0, simulation_step := 0,
    changes := emptyChanges }

/-- Oracle refuting C2 as stated: `random.random()` draws 0.9 (fails the
`< 0.8` test) and then 0.6 (fails the `< 0.5` test) — both legal values of
`random.random()` — so neither branch of lines 230-254 fires. -/
def rC2 : StepRand :=
  { rW with orderR1 := fun _ => 9 / 10, orderR2 := fun _ => 3 / 5 }

/-- A pending order whose delivery-date string parses in neither accepted
format (`fromisoformat` and `strptime("%Y-%m-%d")` both raise). -/
def ordMalformedC3 : Order :=
  { id := "o3", status := "pending", expected_delivery := some .malformed,
    expected_delivery_date := none }

/-- Initial state for the C3 counterexample. -/
def sC3 : SimState :=
  { suppliers := [supW], contracts := [conW], orders := [ordMalformedC3],
    market_conditions := mcW, simulation_date := 0, simulation_step := 0,
    changes := emptyChanges }

/-- A pending order carrying neither delivery-date field. -/
def ordNoDate : Order :=
  { id := "o4", status := "pending", expected_delivery := none,
    expected_delivery_date := none }

/-- Initial state for the C3 amended witness: one dateless order. -/
def sC3b : SimState :=
  { suppliers := [supW], contracts := [conW], orders := [ordNoDate],
    market_conditions := mcW, simulation_date := 0, simulation_step := 0,
    changes := emptyChanges }

/-- Whether a `simulate_step` run completed without raising. -/
def exceptIsOk : Except PyErr SimState → Bool
  | .ok _ => true
  | .error _ => false

/-- A supplier whose yearly capacity has drifted all the way down to 1 kg. -/
def supCap1 : Supplier :=
  { id := "sup2", name := "Tiny Farm", region := "Africa",
    bean_types := ["Arabica"], quality_score := 6, reliability_score := 6,
    sustainability_score := 6, capacity_kg_per_year := 1 }

/-- State for the C9 counterexample. -/
def sC9 : SimState :=
  { suppliers := [supCap1], contracts := [conW], orders := [],
    market_conditions := mcW, simulation_date := 0, simulation_step := 0,
    changes := emptyChanges }

/-- Oracle for C9: drift fires on supplier 0, attribute `capacity`, with the
most negative legal `random.uniform(-0.1, 0.1)` draw. -/
def rC9 : StepRand :=
  { rW with
    supplierDraw := 0
    supplierIdx := 0
    updateType := .capacity
    capacityPct := -(1 / 10) }

/-- A supplier at capacity 2 for the C9 amended witness. -/
def supCap2 : Supplier :=
  { supCap1 with id := "sup3", name := "Small Farm", capacity_kg_per_year := 2 }

/-- State for the C9 amended witness. -/
def sC9b : SimState :=
  { suppliers := [supCap2], contracts := [conW], orders := [],
    market_conditions := mcW, simulation_date := 0, simulation_step := 0,
    changes := emptyChanges }

/-- A legacy order: only `expected_delivery_date`, no `expected_delivery`. -/
def ordLegacy : Order :=
  { id := "o5", status := "pending", expected_delivery := none,
    expected_delivery_date := some (.parsableIso 20) }

/-- State for the C10 KeyError case. -/
def sC10 : SimState :=
  { suppliers := [supW], contracts := [conW], orders := [ordLegacy],
    market_conditions := mcW, simulation_date := 0, simulation_step := 0,
    changes := emptyChanges }

/-- An order carrying the `expected_delivery` key. -/
def ordModern : Order :=
  { id := "o6", status := "pending", expected_delivery := some (.parsableIso 20),
    expected_delivery_date := none }

/-- State for the C10 success case. -/
def sC10b : SimState :=
  { suppliers := [supW], contracts := [conW], orders := [ordModern],
    market_conditions := mcW, simulation_date := 0, simulation_step := 0,
    changes := emptyChanges }

/-- State for the C8 witness: no contracts at all. -/
def sC8 : SimState :=
  { suppliers := [supW], contracts := [], orders := [],
    market_conditions := mcW, simulation_date := 0, simulation_step := 0,
    changes := emptyChanges }

/-- Oracle for the C8 witness: the 0.5 fallback draw succeeds. -/
def rC8 : StepRand := { rW with contractDraw := 0 }

/-- Heap for the C7 witness: a one-supplier list at address 0 whose single
element is the primitive at address 1. -/
def heapC7 : HeapModel.Heap :=
  [(0, .lst [1]), (1, .prim (.str "Alpha Coffee"))]

/-- Engine for the C7 witness: suppliers root 0, next fresh address 2. -/
def engC7 : HeapModel.PyEngine :=
  { heap := heapC7, suppliersRoot := 0, nextAddr := 2 }

/-- The engine after `get_suppliers` on `engC7`: the copy occupies the fresh
addresses 2 and 3 (its root), prepended to the heap. -/
def engC7copied : HeapModel.PyEngine :=
  { heap := [(3, .lst [2]), (2, .prim (.str "Alpha Coffee")),
             (0, .lst [1]), (1, .prim (.str "Alpha Coffee"))],
    suppliersRoot := 0, nextAddr := 4 }

/-! Lemma layer. -/

theorem round1_mem (x : ℚ) (h5 : 5 ≤ x) (h10 : x ≤ 10) :
    5 ≤ round1 x ∧ round1 x ≤ 10 := by
  have hub : (round (x * 10) : ℚ) ≤ x * 10 + 1 / 2 := round_le_add_half _
  have hlb : x * 10 - 1 / 2 < (round (x * 10) : ℚ) := sub_half_lt_round _
  have h101 : ((round (x * 10) : ℤ) : ℚ) < ((101 : ℤ) : ℚ) := by push_cast; linarith
  have h49 : ((49 : ℤ) : ℚ) < ((round (x * 10) : ℤ) : ℚ) := by push_cast; linarith
  have hub2 : round (x * 10) ≤ 100 := Int.lt_add_one_iff.mp (by exact_mod_cast h101)
  have hlb2 : (50 : ℤ) ≤ round (x * 10) := Int.add_one_le_iff.mpr (by exact_mod_cast h49)
  have hub3 : ((round (x * 10) : ℤ) : ℚ) ≤ 100 := by exact_mod_cast hub2
  have hlb3 : (50 : ℚ) ≤ ((round (x * 10) : ℤ) : ℚ) := by exact_mod_cast hlb2
  unfold round1
  constructor <;> linarith

/-- The clamp at line 99 lands in `[3, 10]` whatever the rounded price was. -/
theorem clamp_price_mem (x : ℚ) : priceOK (max 3 (min 10 x)) :=
  ⟨le_max_left _ _, max_le (by norm_num) (min_le_left _ _)⟩

/-- The clamp-then-round of lines 294/301/308 lands in `[5, 10]` whatever
the perturbed score was. -/
theorem clamp_round_score_mem (x : ℚ) : scoreOK (round1 (max 5 (min 10 x))) := by
  have h5 : (5 : ℚ) ≤ max 5 (min 10 x) := le_max_left _ _
  have h10 : max 5 (min 10 x) ≤ 10 := max_le (by norm_num) (min_le_left _ _)
  exact round1_mem _ h5 h10

theorem afterMarket_suppliers (s : SimState) (r : StepRand) :
    (afterMarket s r).suppliers = s.suppliers := rfl

theorem afterMarket_contracts (s : SimState) (r : StepRand) :
    (afterMarket s r).contracts = s.contracts := rfl

theorem afterMarket_orders (s : SimState) (r : StepRand) :
    (afterMarket s r).orders = s.orders := rfl

theorem afterMarket_date (s : SimState) (r : StepRand) :
    (afterMarket s r).simulation_date = s.simulation_date + 1 := rfl

theorem afterMarket_avg (s : SimState) (r : StepRand) :
    (afterMarket s r).market_conditions.average_price =
      max 3 (min 10 (round2 (s.market_conditions.average_price * (1 + r.changePct)))) := rfl

theorem afterOrders_suppliers (s : SimState) (oc : List Order × List OrderChange) :
    (afterOrders s oc).suppliers = s.suppliers := rfl

theorem afterOrders_contracts (s : SimState) (oc : List Order × List OrderChange) :
    (afterOrders s oc).contracts = s.contracts := rfl

theorem afterOrders_market (s : SimState) (oc : List Order × List OrderChange) :
    (afterOrders s oc).market_conditions = s.market_conditions := rfl

theorem afterOrders_date (s : SimState) (oc : List Order × List OrderChange) :
    (afterOrders s oc).simulation_date = s.simulation_date := rfl

theorem us_contracts (s : SimState) (r : StepRand) :
    (_update_suppliers s r).contracts = s.contracts := by
  unfold _update_suppliers
  split
  · split
    · rfl
    · cases r.updateType <;> rfl
  · rfl

theorem us_orders (s : SimState) (r : StepRand) :
    (_update_suppliers s r).orders = s.orders := by
  unfold _update_suppliers
  split
  · split
    · rfl
    · cases r.updateType <;> rfl
  · rfl

theorem us_market (s : SimState) (r : StepRand) :
    (_update_suppliers s r).market_conditions = s.market_conditions := by
  unfold _update_suppliers
  split
  · split
    · rfl
    · cases r.updateType <;> rfl
  · rfl

theorem us_date (s : SimState) (r : StepRand) :
    (_update_suppliers s r).simulation_date = s.simulation_date := by
  unfold _update_suppliers
  split
  · split
    · rfl
    · cases r.updateType <;> rfl
  · rfl

theorem us_scoresOK (s : SimState) (r : StepRand)
    (hs : ∀ sup ∈ s.suppliers, scoresOK sup) :
    ∀ sup ∈ (_update_suppliers s r).suppliers, scoresOK sup := by
  unfold _update_suppliers
  by_cases hlen : s.suppliers.length > 0
  · simp only [if_pos hlen]
    cases heq : s.suppliers.get? r.supplierIdx with
    | none => exact hs
    | some sup =>
      have hsup : sup ∈ s.suppliers := List.get?_mem heq
      obtain ⟨h1, h2, h3⟩ := hs sup hsup
      cases r.updateType with
      | quality =>
        intro x hx
        rcases List.mem_or_eq_of_mem_set hx with hmem | hnew
        · exact hs x hmem
        · subst hnew; exact ⟨clamp_round_score_mem _, h2, h3⟩
      | reliability =>
        intro x hx
        rcases List.mem_or_eq_of_mem_set hx with hmem | hnew
        · exact hs x hmem
        · subst hnew; exact ⟨h1, clamp_round_score_mem _, h3⟩
      | sustainability =>
        intro x hx
        rcases List.mem_or_eq_of_mem_set hx with hmem | hnew
        · exact hs x hmem
        · subst hnew; exact ⟨h1, h2, clamp_round_score_mem _⟩
      | capacity =>
        intro x hx
        rcases List.mem_or_eq_of_mem_set hx with hmem | hnew
        · exact hs x hmem
        · subst hnew; exact ⟨h1, h2, h3⟩
  · simp only [if_neg hlen]; exact hs

theorem afterDrift_contracts (s : SimState) (r : StepRand) :
    (afterDrift s r).contracts = s.contracts := by
  unfold afterDrift; split
  · exact us_contracts s r
  · rfl

theorem afterDrift_orders (s : SimState) (r : StepRand) :
    (afterDrift s r).orders = s.orders := by
  unfold afterDrift; split
  · exact us_orders s r
  · rfl

theorem afterDrift_market (s : SimState) (r : StepRand) :
    (afterDrift s r).market_conditions = s.market_conditions := by
  unfold afterDrift; split
  · exact us_market s r
  · rfl

theorem afterDrift_date (s : SimState) (r : StepRand) :
    (afterDrift s r).simulation_date = s.simulation_date := by
  unfold afterDrift; split
  · exact us_date s r
  · rfl

theorem afterDrift_scoresOK (s : SimState) (r : StepRand)
    (hs : ∀ sup ∈ s.suppliers, scoresOK sup) :
    ∀ sup ∈ (afterDrift s r).suppliers, scoresOK sup := by
  unfold afterDrift; split
  · exact us_scoresOK s r hs
  · exact hs

theorem csc_suppliers (s : SimState) (r : StepRand) :
    (_create_sample_contract s r).suppliers = s.suppliers := by
  unfold _create_sample_contract
  split
  · rfl
  · split <;> rfl

theorem csc_orders (s : SimState) (r : StepRand) :
    (_create_sample_contract s r).orders = s.orders := by
  unfold _create_sample_contract
  split
  · rfl
  · split <;> rfl

theorem csc_market (s : SimState) (r : StepRand) :
    (_create_sample_contract s r).market_conditions = s.market_conditions := by
  unfold _create_sample_contract
  split
  · rfl
  · split <;> rfl

theorem csc_date (s : SimState) (r : StepRand) :
    (_create_sample_contract s r).simulation_date = s.simulation_date := by
  unfold _create_sample_contract
  split
  · rfl
  · split <;> rfl

theorem afterFallback_suppliers (s : SimState) (r : StepRand) :
    (afterFallback s r).suppliers = s.suppliers := by
  unfold afterFallback
  split
  · split
    · exact csc_suppliers s r
    · rfl
  · rfl

theorem afterFallback_orders (s : SimState) (r : StepRand) :
    (afterFallback s r).orders = s.orders := by
  unfold afterFallback
  split
  · split
    · exact csc_orders s r
    · rfl
  · rfl

theorem afterFallback_market (s : SimState) (r : StepRand) :
    (afterFallback s r).market_conditions = s.market_conditions := by
  unfold afterFallback
  split
  · split
    · exact csc_market s r
    · rfl
  · rfl

theorem afterFallback_date (s : SimState) (r : StepRand) :
    (afterFallback s r).simulation_date = s.simulation_date := by
  unfold afterFallback
  split
  · split
    · exact csc_date s r
    · rfl
  · rfl

/-- Successful `simulate_step` runs decompose into the four stages. -/
theorem simulate_step_ok_iff (s : SimState) (r : StepRand) (s' : SimState) :
    simulate_step s r = .ok s' ↔
      ∃ oc, _update_orders (afterMarket s r).simulation_date r (afterMarket s r).orders
              = .ok oc ∧
        s' = afterFallback (afterDrift (afterOrders (afterMarket s r) oc) r) r := by
  unfold simulate_step
  cases h2 : _update_orders (afterMarket s r).simulation_date r (afterMarket s r).orders with
  | error e => simp [Except.map]
  | ok oc =>
    simp only [Except.map, Except.ok.injEq]
    constructor
    · intro h; exact ⟨oc, rfl, h.symm⟩
    · rintro ⟨oc2, hoc2, hs'⟩
      subst hoc2
      exact hs'.symm

/-- One successful step keeps the market price inside `[3, 10]`
(no hypothesis on the incoming state: the clamp at line 99 re-establishes
the bound unconditionally). -/
theorem step_priceOK (s : SimState) (r : StepRand) (s' : SimState)
    (h : simulate_step s r = .ok s') :
    priceOK s'.market_conditions.average_price := by
  rcases (simulate_step_ok_iff s r s').mp h with ⟨oc, _, hs'⟩
  subst hs'
  rw [afterFallback_market, afterDrift_market, afterOrders_market, afterMarket_avg]
  exact clamp_price_mem _

/-- One successful step preserves the supplier score bounds. -/
theorem step_scoresOK (s : SimState) (r : StepRand) (s' : SimState)
    (h : simulate_step s r = .ok s')
    (hs : ∀ sup ∈ s.suppliers, scoresOK sup) :
    ∀ sup ∈ s'.suppliers, scoresOK sup := by
  rcases (simulate_step_ok_iff s r s').mp h with ⟨oc, _, hs'⟩
  subst hs'
  rw [afterFallback_suppliers]
  apply afterDrift_scoresOK
  rw [afterOrders_suppliers, afterMarket_suppliers]
  exact hs

/-- C1: starting from a state whose `average_price` lies in `[3.0, 10.0]`
and all of whose supplier `quality_score`, `reliability_score` and
`sustainability_score` lie in `[5.0, 10.0]`, after every (successful) run of
`simulate_step` — any number of steps, any random draws — the price is still
in `[3.0, 10.0]` and every supplier score is still in `[5.0, 10.0]`. -/
theorem C1_bounds_invariant (s : SimState) (rs : List StepRand) (s' : SimState)
    (hp : priceOK s.market_conditions.average_price)
    (hs : ∀ sup ∈ s.suppliers, scoresOK sup)
    (h : simulate_steps s rs = .ok s') :
    priceOK s'.market_conditions.average_price ∧
      ∀ sup ∈ s'.suppliers, scoresOK sup := by
  induction rs generalizing s with
  | nil =>
    unfold simulate_steps at h
    cases h
    exact ⟨hp, hs⟩
  | cons r rs ih =>
    unfold simulate_steps at h
    cases h2 : simulate_step s r with
    | error e => rw [h2] at h; cases h
    | ok s2 =>
      rw [h2] at h
      simp only [Except.bind] at h
      exact ih s2 (step_priceOK s r s2 h2) (step_scoresOK s r s2 h2 hs) h

/-- Witness for C1: a concrete one-step run from `sC1` with oracle `rW`. -/
theorem C1_bounds_invariant_witness :
    priceOK (stepsResult sC1 [rW]).market_conditions.average_price ∧
      ∀ sup ∈ (stepsResult sC1 [rW]).suppliers, scoresOK sup :=
  C1_bounds_invariant sC1 [rW] (stepsResult sC1 [rW]) (by decide) (by decide)
    (by rfl)

/-- C4: `simulate_step` resets the change-log before running its sub-steps,
so the change-log of the produced state is a function of everything except
the incoming change-log (a per-step diff, not an accumulating log); and
`get_changes` is a pure read, so two consecutive calls with no intervening
mutation return equal snapshots. -/
theorem C4_changes_reset (s : SimState) (c : Changes) (r : StepRand) :
    (simulate_step { s with changes := c } r).map SimState.changes =
        (simulate_step s r).map SimState.changes ∧
      get_changes s = get_changes s :=
  ⟨rfl, rfl⟩

/-- What lines 104-112 do to a `≤ 30`-element history: the result still has
at most 30 entries, ends with the new point, and keeps a suffix of the
appended list (oldest-first eviction). -/
theorem truncate_spec (l : List PricePoint) (pt : PricePoint)
    (hlen : l.length ≤ 30) :
    (if (l ++ [pt]).length > 30
      then (l ++ [pt]).drop ((l ++ [pt]).length - 30) else l ++ [pt]).length ≤ 30 ∧
    (if (l ++ [pt]).length > 30
      then (l ++ [pt]).drop ((l ++ [pt]).length - 30) else l ++ [pt]).getLast?
        = some pt ∧
    ∀ j, (if (l ++ [pt]).length > 30
      then (l ++ [pt]).drop ((l ++ [pt]).length - 30) else l ++ [pt])[j]? =
        (l ++ [pt])[j + (l.length + 1 - 30)]? := by
  have hlapp : (l ++ [pt]).length = l.length + 1 := by
    rw [List.length_append]; rfl
  by_cases hgt : (l ++ [pt]).length > 30
  · rw [if_pos hgt]
    have hL : l.length = 30 := by omega
    refine ⟨?_, ?_, ?_⟩
    · rw [List.length_drop]; omega
    · have hk : (l ++ [pt]).length - 30 ≤ l.length := by omega
      rw [List.drop_append_of_le_length hk, List.getLast?_concat]
    · intro j
      rw [List.getElem?_drop]
      congr 1
      omega
  · rw [if_neg hgt]
    refine ⟨by omega, List.getLast?_concat l, ?_⟩
    intro j
    have h0 : l.length + 1 - 30 = 0 := by omega
    rw [h0, Nat.add_zero]

/-- The price history produced by `_update_market_conditions`, in terms of
the incoming history, the advanced date and the new (already clamped)
average price.  Holds definitionally. -/
theorem afterMarket_history (s : SimState) (r : StepRand) :
    (afterMarket s r).market_conditions.price_history =
      (if (s.market_conditions.price_history ++
            [PricePoint.mk (s.simulation_date + 1)
              (afterMarket s r).market_conditions.average_price]).length > 30
       then (s.market_conditions.price_history ++
            [PricePoint.mk (s.simulation_date + 1)
              (afterMarket s r).market_conditions.average_price]).drop
          ((s.market_conditions.price_history ++
            [PricePoint.mk (s.simulation_date + 1)
              (afterMarket s r).market_conditions.average_price]).length - 30)
       else s.market_conditions.price_history ++
            [PricePoint.mk (s.simulation_date + 1)
              (afterMarket s r).market_conditions.average_price]) := rfl

/-- C5: one successful `simulate_step` from a state with at most 30 recorded
price points leaves at most 30 points, appends the new `{date, price}` point
(the advanced date and the new average price) at the end, and evicts
oldest-first: entry `j` of the new history is entry
`j + (len + 1 - 30)` of the appended list. -/
theorem C5_price_history (s : SimState) (r : StepRand) (s' : SimState)
    (hlen : s.market_conditions.price_history.length ≤ 30)
    (h : simulate_step s r = .ok s') :
    s'.market_conditions.price_history.length ≤ 30 ∧
      s'.market_conditions.price_history.getLast? =
        some ⟨s'.simulation_date, s'.market_conditions.average_price⟩ ∧
      ∀ j, s'.market_conditions.price_history[j]? =
        (s.market_conditions.price_history ++
          [⟨s'.simulation_date, s'.market_conditions.average_price⟩])[j +
            (s.market_conditions.price_history.length + 1 - 30)]? := by
  rcases (simulate_step_ok_iff s r s').mp h with ⟨oc, _, hs'⟩
  have hmkt : s'.market_conditions = (afterMarket s r).market_conditions := by
    rw [hs', afterFallback_market, afterDrift_market, afterOrders_market]
  have hdate : s'.simulation_date = s.simulation_date + 1 := by
    rw [hs', afterFallback_date, afterDrift_date, afterOrders_date, afterMarket_date]
  rw [hmkt, hdate, afterMarket_history]
  exact truncate_spec _ _ hlen

/-- Witness for C5: a concrete run of one step from `sC1` (empty history). -/
theorem C5_price_history_witness :
    (stepResult sC1 rW).market_conditions.price_history.length ≤ 30 ∧
      (stepResult sC1 rW).market_conditions.price_history.getLast? =
        some ⟨(stepResult sC1 rW).simulation_date,
              (stepResult sC1 rW).market_conditions.average_price⟩ ∧
      (stepResult sC1 rW).market_conditions.price_history[0]? =
        (sC1.market_conditions.price_history ++
          [⟨(stepResult sC1 rW).simulation_date,
            (stepResult sC1 rW).market_conditions.average_price⟩])[0 +
          (sC1.market_conditions.price_history.length + 1 - 30)]? := by
  have h := C5_price_history sC1 rW (stepResult sC1 rW) (by decide) (by rfl)
  exact ⟨h.1, h.2.1, h.2.2 0⟩

/-- Lines 200-203: the loop body leaves a `delivered` or `cancelled` order
untouched and records nothing. -/
theorem stepOrder_absorbed (simDate : ℤ) (r : StepRand) (i : ℕ) (o : Order)
    (h : o.status = "delivered" ∨ o.status = "cancelled") :
    stepOrder simDate r i o = .ok (o, []) := by
  unfold stepOrder
  rw [if_pos h]

/-- The order loop keeps every absorbed (`delivered`/`cancelled`) order
unchanged at its position. -/
theorem uof_absorbed (simDate : ℤ) (r : StepRand) :
    ∀ (l : List Order) (j : ℕ) (oc : List Order × List OrderChange),
      updateOrdersFrom simDate r j l = .ok oc →
      ∀ i o, l.get? i = some o →
        (o.status = "delivered" ∨ o.status = "cancelled") →
        oc.1.get? i = some o := by
  intro l
  induction l with
  | nil => intro j oc _ i o hi; cases hi
  | cons o0 rest ih =>
    intro j oc h i o hi hst
    unfold updateOrdersFrom at h
    cases h1 : stepOrder simDate r j o0 with
    | error e => rw [h1] at h; cases h
    | ok oc0 =>
      rw [h1] at h
      cases h2 : updateOrdersFrom simDate r (j + 1) rest with
      | error e => rw [h2] at h; cases h
      | ok restc =>
        rw [h2] at h
        cases h
        cases i with
        | zero =>
          have ho : o0 = o := Option.some.inj hi
          subst ho
          have habs := stepOrder_absorbed simDate r j o0 hst
          rw [habs] at h1
          cases h1
          rfl
        | succ i2 => exact ih (j + 1) restc h2 i2 o hi hst

/-- One successful `simulate_step` keeps an absorbed order unchanged. -/
theorem step_absorbed (s : SimState) (r : StepRand) (s' : SimState) (i : ℕ)
    (o : Order) (ho : s.orders.get? i = some o)
    (hst : o.status = "delivered" ∨ o.status = "cancelled")
    (h : simulate_step s r = .ok s') : s'.orders.get? i = some o := by
  rcases (simulate_step_ok_iff s r s').mp h with ⟨oc, hoc, hs'⟩
  have hor : s'.orders = oc.1 := by
    rw [hs', afterFallback_orders, afterDrift_orders]
    rfl
  rw [hor]
  exact uof_absorbed (afterMarket s r).simulation_date r s.orders 0 oc hoc i o ho hst

/-- C6: an order whose status is `delivered` or `cancelled` is left entirely
unchanged (in particular its status) by every subsequent successful
`simulate_step`, for any number of steps and any random draws. -/
theorem C6_absorbing_states (s : SimState) (rs : List StepRand) (s' : SimState)
    (i : ℕ) (o : Order) (ho : s.orders.get? i = some o)
    (hst : o.status = "delivered" ∨ o.status = "cancelled")
    (h : simulate_steps s rs = .ok s') : s'.orders.get? i = some o := by
  induction rs generalizing s with
  | nil =>
    unfold simulate_steps at h
    cases h
    exact ho
  | cons r rs ih =>
    unfold simulate_steps at h
    cases h2 : simulate_step s r with
    | error e => rw [h2] at h; cases h
    | ok s2 =>
      rw [h2] at h
      simp only [Except.bind] at h
      exact ih s2 (step_absorbed s r s2 i o ho hst h2) h

/-- Witness for C6: a concrete one-step run keeps `ordDelivered` intact. -/
theorem C6_absorbing_states_witness :
    (stepsResult sC6 [rW]).orders.get? 0 = some ordDelivered :=
  C6_absorbing_states sC6 [rW] (stepsResult sC6 [rW]) 0
    ordDelivered rfl (Or.inl rfl) (by rfl)

/-- The order loop runs the loop body on the order at each position: entry
`i` of the output is the first component of `stepOrder` on entry `i` of the
input. -/
theorem uof_get (simDate : ℤ) (r : StepRand) :
    ∀ (l : List Order) (j : ℕ) (oc : List Order × List OrderChange),
      updateOrdersFrom simDate r j l = .ok oc →
      ∀ i o, l.get? i = some o →
        ∃ oc0, stepOrder simDate r (j + i) o = .ok oc0 ∧
          oc.1.get? i = some oc0.1 := by
  intro l
  induction l with
  | nil => intro j oc _ i o hi; cases hi
  | cons o0 rest ih =>
    intro j oc h i o hi
    unfold updateOrdersFrom at h
    cases h1 : stepOrder simDate r j o0 with
    | error e => rw [h1] at h; cases h
    | ok oc0 =>
      rw [h1] at h
      cases h2 : updateOrdersFrom simDate r (j + 1) rest with
      | error e => rw [h2] at h; cases h
      | ok restc =>
        rw [h2] at h
        cases h
        cases i with
        | zero =>
          have ho : o0 = o := Option.some.inj hi
          subst ho
          exact ⟨oc0, by rw [Nat.add_zero]; exact h1, rfl⟩
        | succ i2 =>
          rcases ih (j + 1) restc h2 i2 o hi with ⟨oc2, hstep, hget⟩
          refine ⟨oc2, ?_, hget⟩
          have hadd : j + (i2 + 1) = j + 1 + i2 := by omega
          rw [hadd]
          exact hstep

/-- Lines 228-254: a pending order within 30 days of delivery either moves
to `in_transit`, moves to `delayed`, or — when both draws fail their
thresholds — is left `pending`. -/
theorem stepOrder_pending_cases (simDate : ℤ) (r : StepRand) (i : ℕ)
    (o : Order) (ds : DateStr) (d : ℤ) (hst : o.status = "pending")
    (hds : resolveDateField o = some ds) (hd : parseDate ds = .ok d)
    (hdays : d - simDate ≤ 30) :
    ∃ o2 ch, stepOrder simDate r i o = .ok (o2, ch) ∧
      (o2.status = "in_transit" ∨ o2.status = "delayed" ∨
        o2.status = "pending") := by
  unfold stepOrder
  rw [if_neg (by rw [hst]; decide :
        ¬(o.status = "delivered" ∨ o.status = "cancelled"))]
  simp only [hds, hd]
  rw [if_pos ⟨hst, hdays⟩]
  by_cases hr1 : r.orderR1 i < 4 / 5
  · rw [if_pos hr1]
    exact ⟨_, _, rfl, Or.inl rfl⟩
  · rw [if_neg hr1]
    by_cases hr2 : r.orderR2 i < 1 / 2
    · rw [if_pos hr2]
      refine ⟨_, _, rfl, Or.inr (Or.inl ?_)⟩
      by_cases he1 : o.expected_delivery.isSome
      · simp [he1]
      · by_cases he2 : o.expected_delivery_date.isSome
        · simp [he1, he2]
        · simp [he1, he2]
    · rw [if_neg hr2]
      exact ⟨_, _, rfl, Or.inr (Or.inr hst)⟩

/-- C2 counterexample: from `sC2` (pending order due in 10 days) with the
legal draws of `rC2`, `simulate_step` completes and the order is still
`pending` — the claim's "never still pending" fails. -/
theorem C2_counterexample :
    simulate_step sC2 rC2 = .ok (stepResult sC2 rC2) ∧
      ((stepResult sC2 rC2).orders.get? 0).map Order.status = some "pending" ∧
      some "pending" ≠ some "in_transit" ∧ some "pending" ≠ some "delayed" :=
  ⟨by with_unfolding_all rfl, by with_unfolding_all rfl, by decide, by decide⟩

/-- C2 as amended: a `pending` order due 10 days after the simulated date
is, after one successful `simulate_step`, in `in_transit`, `delayed`, or
still `pending` (the 0.2·0.5 residual of lines 230-237), and never
`delivered`. -/
theorem C2_pending_order_after_step (s : SimState) (r : StepRand)
    (s' : SimState) (i : ℕ) (o : Order) (ds : DateStr)
    (ho : s.orders.get? i = some o) (hst : o.status = "pending")
    (hds : resolveDateField o = some ds)
    (hd : parseDate ds = .ok (s.simulation_date + 10))
    (h : simulate_step s r = .ok s') :
    ((s'.orders.get? i).map Order.status = some "in_transit" ∨
      (s'.orders.get? i).map Order.status = some "delayed" ∨
      (s'.orders.get? i).map Order.status = some "pending") ∧
    (s'.orders.get? i).map Order.status ≠ some "delivered" := by
  rcases (simulate_step_ok_iff s r s').mp h with ⟨oc, hoc, hs'⟩
  have hor : s'.orders = oc.1 := by
    rw [hs', afterFallback_orders, afterDrift_orders]
    rfl
  have hoc2 : updateOrdersFrom (s.simulation_date + 1) r 0 s.orders = .ok oc := hoc
  rcases uof_get (s.simulation_date + 1) r s.orders 0 oc hoc2 i o ho with
    ⟨oc0, hstep, hget⟩
  rcases stepOrder_pending_cases (s.simulation_date + 1) r (0 + i) o ds
      (s.simulation_date + 10) hst hds hd (by omega) with ⟨o2, ch, hstep2, hcases⟩
  rw [hstep2] at hstep
  cases hstep
  rw [hor, hget]
  simp only [Option.map_some']
  constructor
  · rcases hcases with hh | hh | hh
    · exact Or.inl (by rw [hh])
    · exact Or.inr (Or.inl (by rw [hh]))
    · exact Or.inr (Or.inr (by rw [hh]))
  · rcases hcases with hh | hh | hh <;> simp [hh]

/-- Witness for the amended C2: with draw 0 the order moves to transit. -/
theorem C2_pending_order_after_step_witness :
    (((stepResult sC2 rW).orders.get? 0).map Order.status = some "in_transit" ∨
      ((stepResult sC2 rW).orders.get? 0).map Order.status = some "delayed" ∨
      ((stepResult sC2 rW).orders.get? 0).map Order.status = some "pending") ∧
    ((stepResult sC2 rW).orders.get? 0).map Order.status ≠ some "delivered" :=
  C2_pending_order_after_step sC2 rW (stepResult sC2 rW) 0 ordPendingC2
    (.parsableIso 10) rfl rfl rfl rfl (by with_unfolding_all rfl)

/-- C3 counterexample: an order whose date string neither parser accepts
makes `simulate_step` raise `ValueError` (the `except ValueError` handler at
lines 221-223 itself re-parses and raises) instead of silently skipping. -/
theorem C3_counterexample :
    simulate_step sC3 rW = .error .valueError := rfl

/-- Lines 206-212: an order carrying neither date field is skipped
unchanged with nothing recorded. -/
theorem stepOrder_noDate (simDate : ℤ) (r : StepRand) (i : ℕ) (o : Order)
    (h1 : o.expected_delivery = none) (h2 : o.expected_delivery_date = none) :
    stepOrder simDate r i o = .ok (o, []) := by
  unfold stepOrder
  by_cases habs : o.status = "delivered" ∨ o.status = "cancelled"
  · rw [if_pos habs]
  · rw [if_neg habs]
    simp [resolveDateField, h1, h2]

/-- If every order in the list is dateless the loop is a global no-op. -/
theorem uof_noDate (simDate : ℤ) (r : StepRand) :
    ∀ (l : List Order) (j : ℕ),
      (∀ o2 ∈ l, o2.expected_delivery = none ∧ o2.expected_delivery_date = none) →
      updateOrdersFrom simDate r j l = .ok (l, []) := by
  intro l
  induction l with
  | nil => intro j _; rfl
  | cons o0 rest ih =>
    intro j hall
    unfold updateOrdersFrom
    rw [stepOrder_noDate simDate r j o0 (hall o0 (by simp)).1 (hall o0 (by simp)).2]
    rw [ih (j + 1) (fun o2 ho2 => hall o2 (by simp [ho2]))]
    rfl

/-- C3 as amended: an order whose delivery-date fields are both absent is
silently skipped — the loop body leaves it unchanged and records nothing,
and (when parsing raises nowhere else, e.g. every order is dateless) the
step completes without error with the order intact.  An order whose date
string is unparsable in both accepted formats instead raises `ValueError`
(see the counterexample). -/
theorem C3_missing_date_skipped (s : SimState) (r : StepRand) (i : ℕ)
    (o : Order) (ho : s.orders.get? i = some o)
    (h1 : o.expected_delivery = none) (h2 : o.expected_delivery_date = none) :
    stepOrder (s.simulation_date + 1) r i o = .ok (o, []) ∧
      ((∀ o2 ∈ s.orders,
          o2.expected_delivery = none ∧ o2.expected_delivery_date = none) →
        simulate_step s r = .ok (stepResult s r) ∧
          (stepResult s r).orders.get? i = some o) := by
  refine ⟨stepOrder_noDate _ r i o h1 h2, ?_⟩
  intro hall
  have huof : updateOrdersFrom (s.simulation_date + 1) r 0 s.orders =
      .ok (s.orders, []) := uof_noDate (s.simulation_date + 1) r s.orders 0 hall
  have hok : simulate_step s r =
      .ok (afterFallback (afterDrift (afterOrders (afterMarket s r)
        (s.orders, [])) r) r) := by
    unfold simulate_step
    have huof2 : _update_orders (afterMarket s r).simulation_date r
        (afterMarket s r).orders = .ok (s.orders, []) := huof
    rw [huof2]
    rfl
  have hres : stepResult s r = afterFallback (afterDrift (afterOrders
      (afterMarket s r) (s.orders, [])) r) r := by
    unfold stepResult
    rw [hok]
  refine ⟨by rw [hok, hres], ?_⟩
  rw [hres]
  have hord : (afterFallback (afterDrift (afterOrders (afterMarket s r)
      (s.orders, [])) r) r).orders = s.orders := by
    rw [afterFallback_orders, afterDrift_orders]
    rfl
  rw [hord]
  exact ho

/-- Witness for the amended C3: the dateless order of `sC3b` survives a full
step unchanged and the step raises nothing. -/
theorem C3_missing_date_skipped_witness :
    stepOrder (sC3b.simulation_date + 1) rW 0 ordNoDate = .ok (ordNoDate, []) ∧
      simulate_step sC3b rW = .ok (stepResult sC3b rW) ∧
      (stepResult sC3b rW).orders.get? 0 = some ordNoDate := by
  have h := C3_missing_date_skipped sC3b rW 0 ordNoDate rfl rfl rfl
  exact ⟨h.1, h.2 (by decide)⟩

/-- C9 counterexample: a supplier with `capacity_kg_per_year = 1` hit by the
legal drift draw −10% gets `int(1 × 0.9) = 0` — a nonpositive capacity,
refuting "still a positive integer". -/
theorem C9_counterexample :
    (sC9.suppliers.get? 0).map Supplier.capacity_kg_per_year = some 1 ∧
      ((_update_suppliers sC9 rC9).suppliers.get? 0).map
          Supplier.capacity_kg_per_year = some 0 ∧
      ¬ (0 : ℤ) > 0 :=
  ⟨rfl, by with_unfolding_all rfl, by decide⟩

/-- C9 as amended: the capacity perturbation
`int(capacity × (1 + pct))`, `pct ∈ [−0.1, 0.1]`, always yields a
NONNEGATIVE integer, and a positive one whenever the old capacity is at
least 2; from capacity 1 it can truncate to 0 (see the counterexample). -/
theorem C9_capacity_nonneg (s : SimState) (r : StepRand) (sup : Supplier)
    (hsup : s.suppliers.get? r.supplierIdx = some sup)
    (hty : r.updateType = .capacity)
    (hpos : 0 < sup.capacity_kg_per_year)
    (hlo : -(1 / 10) ≤ r.capacityPct) (hhi : r.capacityPct ≤ 1 / 10) :
    ((_update_suppliers s r).suppliers.get? r.supplierIdx).map
        Supplier.capacity_kg_per_year =
      some (pyInt ((sup.capacity_kg_per_year : ℚ) * (1 + r.capacityPct))) ∧
    0 ≤ pyInt ((sup.capacity_kg_per_year : ℚ) * (1 + r.capacityPct)) ∧
    (2 ≤ sup.capacity_kg_per_year →
      0 < pyInt ((sup.capacity_kg_per_year : ℚ) * (1 + r.capacityPct))) := by
  have hcap0 : (0 : ℚ) ≤ (sup.capacity_kg_per_year : ℚ) := by
    exact_mod_cast hpos.le
  have hfac0 : (0 : ℚ) ≤ 1 + r.capacityPct := by linarith
  have hx0 : (0 : ℚ) ≤ (sup.capacity_kg_per_year : ℚ) * (1 + r.capacityPct) :=
    mul_nonneg hcap0 hfac0
  have hfloor : pyInt ((sup.capacity_kg_per_year : ℚ) * (1 + r.capacityPct)) =
      ⌊(sup.capacity_kg_per_year : ℚ) * (1 + r.capacityPct)⌋ := by
    unfold pyInt
    rw [if_neg (not_lt.mpr hx0)]
  refine ⟨?_, ?_, ?_⟩
  · obtain ⟨hlt, _⟩ := List.get?_eq_some.mp hsup
    unfold _update_suppliers
    rw [if_pos (by omega : s.suppliers.length > 0)]
    simp only [hsup, hty]
    rw [List.get?_set_eq_of_lt _ (by simpa using hlt)]
    rfl
  · rw [hfloor]
    exact Int.le_floor.mpr (by push_cast; exact hx0)
  · intro h2cap
    rw [hfloor]
    have hq : (2 : ℚ) ≤ (sup.capacity_kg_per_year : ℚ) := by exact_mod_cast h2cap
    have hA : (2 : ℚ) * (1 + r.capacityPct) ≤
        (sup.capacity_kg_per_year : ℚ) * (1 + r.capacityPct) :=
      mul_le_mul_of_nonneg_right hq hfac0
    have h1 : (1 : ℤ) ≤ ⌊(sup.capacity_kg_per_year : ℚ) * (1 + r.capacityPct)⌋ :=
      Int.le_floor.mpr (by push_cast; linarith)
    omega

/-- Witness for the amended C9: capacity 2 drifted by −10% gives
`int(1.8) = 1`, nonnegative and positive. -/
theorem C9_capacity_nonneg_witness :
    ((_update_suppliers sC9b rC9).suppliers.get? rC9.supplierIdx).map
        Supplier.capacity_kg_per_year =
      some (pyInt ((supCap2.capacity_kg_per_year : ℚ) * (1 + rC9.capacityPct))) ∧
    0 ≤ pyInt ((supCap2.capacity_kg_per_year : ℚ) * (1 + rC9.capacityPct)) ∧
    0 < pyInt ((supCap2.capacity_kg_per_year : ℚ) * (1 + rC9.capacityPct)) := by
  have h := C9_capacity_nonneg sC9b rC9 supCap2 rfl rfl (by decide)
    (by with_unfolding_all decide) (by with_unfolding_all decide)
  exact ⟨h.1, h.2.1, h.2.2 (by decide)⟩

/-- The search loop of `update_order_expected_delivery` on the first order
whose id matches: a missing `expected_delivery` key raises before anything
is written; a present key is overwritten in place and one change recorded. -/
theorem updDelivAux_spec (oid : String) (nd : DateStr) :
    ∀ (l : List Order) (i : ℕ) (o : Order), l.get? i = some o → o.id = oid →
      (∀ j o2, j < i → l.get? j = some o2 → o2.id ≠ oid) →
      (o.expected_delivery = none → updDelivAux oid nd l = .raised) ∧
      (∀ old, o.expected_delivery = some old →
        updDelivAux oid nd l =
          .updated (l.set i { o with expected_delivery := some nd })
            (.update_delivery oid old nd)) := by
  intro l
  induction l with
  | nil => intro i o hi; cases hi
  | cons o0 rest ih =>
    intro i o hi hid hfirst
    cases i with
    | zero =>
      have ho : o0 = o := Option.some.inj hi
      subst ho
      constructor
      · intro hnone
        unfold updDelivAux
        rw [if_pos hid, hnone]
      · intro old hsome
        unfold updDelivAux
        rw [if_pos hid, hsome]
        rfl
    | succ i2 =>
      have hne : o0.id ≠ oid := hfirst 0 o0 (Nat.succ_pos i2) rfl
      have hrest := ih i2 o hi hid
        (fun j o2 hj hg => hfirst (j + 1) o2 (by omega) hg)
      constructor
      · intro hnone
        unfold updDelivAux
        rw [if_neg hne, hrest.1 hnone]
      · intro old hsome
        unfold updDelivAux
        rw [if_neg hne, hrest.2 old hsome]
        rfl

/-- C10: calling `update_order_expected_delivery` on the first order whose
id matches raises `KeyError` (line 444 reads `order["expected_delivery"]`)
with the state — order list and change-log — returned untouched whenever the
order lacks the `expected_delivery` key (e.g. a legacy order carrying only
`expected_delivery_date`); when the key is present the update succeeds,
rewriting exactly that key and appending one change entry. -/
theorem C10_update_delivery (s : SimState) (order_id : String) (nd : DateStr)
    (i : ℕ) (o : Order) (ho : s.orders.get? i = some o) (hid : o.id = order_id)
    (hfirst : ∀ j o2, j < i → s.orders.get? j = some o2 → o2.id ≠ order_id) :
    (o.expected_delivery = none →
      update_order_expected_delivery s order_id nd = (s, some .keyError)) ∧
    (∀ old, o.expected_delivery = some old →
      update_order_expected_delivery s order_id nd =
        ({ s with
            orders := s.orders.set i { o with expected_delivery := some nd }
            changes := { s.changes with
              orders := s.changes.orders ++
                [.update_delivery order_id old nd] } },
          none)) := by
  have hspec := updDelivAux_spec order_id nd s.orders i o ho hid hfirst
  constructor
  · intro hnone
    unfold update_order_expected_delivery
    rw [hspec.1 hnone]
  · intro old hsome
    unfold update_order_expected_delivery
    rw [hspec.2 old hsome]

/-- C8: after a successful `simulate_step`, writing `s4` for the state the
fallback policy inspects (whose contracts equal the incoming ones, since no
earlier sub-step touches contracts): if some incoming contract is `active`,
the contract list is unchanged; with zero active contracts and the 0.5 draw
failing, unchanged; with zero active contracts and the draw succeeding,
exactly one contract is appended — built from the oracle-chosen supplier,
priced at `round2(average_price × (0.9 + quality_score/10 × 0.3))` against
the POST-update average price, spanning `contractDuration ∈ [90, 365]` days
from the simulated date, and inserted directly with status `"active"`. -/
theorem C8_contract_fallback (s : SimState) (r : StepRand) (s' : SimState)
    (sup : Supplier) (h : simulate_step s r = .ok s')
    (hsup : s'.suppliers.get? r.contractSupplierIdx = some sup)
    (hdur : 90 ≤ r.contractDuration) (hdur2 : r.contractDuration ≤ 365) :
    ((∃ c ∈ s.contracts, c.status = "active") → s'.contracts = s.contracts) ∧
    ((∀ c ∈ s.contracts, c.status ≠ "active") → ¬ r.contractDraw < 1 / 2 →
      s'.contracts = s.contracts) ∧
    ((∀ c ∈ s.contracts, c.status ≠ "active") → r.contractDraw < 1 / 2 →
      s'.contracts = s.contracts ++
        [{ id := "contract_" ++ sup.id ++ "_" ++ r.nowStamp
           supplier_id := sup.id
           supplier_name := sup.name
           status := "active"
           start_date := s'.simulation_date
           end_date := s'.simulation_date + (r.contractDuration : ℤ)
           price_per_pound := round2 (s'.market_conditions.average_price *
             (9 / 10 + sup.quality_score / 10 * (3 / 10)))
           volume_min_lbs := r.volumeMin
           volume_max_lbs := r.volumeMax
           bean_types := sup.bean_types
           payment_terms := r.paymentTerms
           delivery_terms := r.deliveryTerms
           quality_requirements := "SCA score 80+"
           sustainability_requirements := r.sustainabilityReq }] ∧
      (90 : ℤ) ≤ s'.simulation_date + (r.contractDuration : ℤ) -
          s'.simulation_date ∧
      s'.simulation_date + (r.contractDuration : ℤ) - s'.simulation_date
          ≤ 365) := by
  rcases (simulate_step_ok_iff s r s').mp h with ⟨oc, hoc, hs'⟩
  set s4 := afterDrift (afterOrders (afterMarket s r) oc) r with hs4def
  have hc4 : s4.contracts = s.contracts := by
    rw [hs4def, afterDrift_contracts, afterOrders_contracts, afterMarket_contracts]
  have hsups : s'.suppliers = s4.suppliers := by
    rw [hs', afterFallback_suppliers]
  have hmkt : s'.market_conditions = s4.market_conditions := by
    rw [hs', afterFallback_market]
  have hdate : s'.simulation_date = s4.simulation_date := by
    rw [hs', afterFallback_date]
  have hsup4 : s4.suppliers.get? r.contractSupplierIdx = some sup := by
    rw [← hsups]; exact hsup
  have hfilOf : (∀ c ∈ s.contracts, c.status ≠ "active") →
      (s4.contracts.filter (fun c => c.status = "active")).length = 0 := by
    intro hnone
    rw [List.length_eq_zero, List.filter_eq_nil_iff]
    intro c hc
    rw [hc4] at hc
    simpa using hnone c hc
  refine ⟨?_, ?_, ?_⟩
  · rintro ⟨c, hc, hcs⟩
    have hneg : ¬ (s4.contracts.filter
        (fun c => c.status = "active")).length = 0 := by
      intro h0
      rw [List.length_eq_zero] at h0
      have hmem : c ∈ s4.contracts.filter (fun c => c.status = "active") :=
        List.mem_filter.mpr ⟨by rw [hc4]; exact hc, by simp [hcs]⟩
      rw [h0] at hmem
      exact absurd hmem (List.not_mem_nil c)
    rw [hs']
    unfold afterFallback
    rw [if_neg hneg]
    exact hc4
  · intro hnone hdraw
    rw [hs']
    unfold afterFallback
    rw [if_pos (hfilOf hnone), if_neg hdraw]
    exact hc4
  · intro hnone hdraw
    have hne : s4.suppliers.isEmpty = false := by
      cases hh : s4.suppliers with
      | nil => rw [hh] at hsup4; cases hsup4
      | cons a l => rfl
    have hmain : s'.contracts = s.contracts ++
        [{ id := "contract_" ++ sup.id ++ "_" ++ r.nowStamp
           supplier_id := sup.id
           supplier_name := sup.name
           status := "active"
           start_date := s4.simulation_date
           end_date := s4.simulation_date + (r.contractDuration : ℤ)
           price_per_pound := round2 (s4.market_conditions.average_price *
             (9 / 10 + sup.quality_score / 10 * (3 / 10)))
           volume_min_lbs := r.volumeMin
           volume_max_lbs := r.volumeMax
           bean_types := sup.bean_types
           payment_terms := r.paymentTerms
           delivery_terms := r.deliveryTerms
           quality_requirements := "SCA score 80+"
           sustainability_requirements := r.sustainabilityReq }] := by
      rw [hs']
      unfold afterFallback
      rw [if_pos (hfilOf hnone), if_pos hdraw]
      unfold _create_sample_contract
      rw [if_neg (by rw [hne]; simp)]
      simp only [hsup4]
      rw [hc4]
    refine ⟨?_, by omega, by omega⟩
    rw [hmain, hdate, hmkt]

/-- Witness for C8: from `sC8` (zero contracts) with the fallback draw
succeeding, exactly the synthesized active contract is appended. -/
theorem C8_contract_fallback_witness :
    (stepResult sC8 rC8).contracts = sC8.contracts ++
      [{ id := "contract_" ++ supW.id ++ "_" ++ rC8.nowStamp
         supplier_id := supW.id
         supplier_name := supW.name
         status := "active"
         start_date := (stepResult sC8 rC8).simulation_date
         end_date := (stepResult sC8 rC8).simulation_date +
           (rC8.contractDuration : ℤ)
         price_per_pound := round2
           ((stepResult sC8 rC8).market_conditions.average_price *
             (9 / 10 + supW.quality_score / 10 * (3 / 10)))
         volume_min_lbs := rC8.volumeMin
         volume_max_lbs := rC8.volumeMax
         bean_types := supW.bean_types
         payment_terms := rC8.paymentTerms
         delivery_terms := rC8.deliveryTerms
         quality_requirements := "SCA score 80+"
         sustainability_requirements := rC8.sustainabilityReq }] ∧
    (90 : ℤ) ≤ (stepResult sC8 rC8).simulation_date +
        (rC8.contractDuration : ℤ) - (stepResult sC8 rC8).simulation_date ∧
    (stepResult sC8 rC8).simulation_date + (rC8.contractDuration : ℤ) -
        (stepResult sC8 rC8).simulation_date ≤ 365 := by
  have h := C8_contract_fallback sC8 rC8 (stepResult sC8 rC8) supW
    (by rfl) (by with_unfolding_all rfl) (by decide) (by decide)
  exact h.2.2 (by decide) (by with_unfolding_all decide)

/-- Witness for C10: the legacy order raises `KeyError` leaving the state
intact; the modern order is updated in place. -/
theorem C10_update_delivery_witness :
    update_order_expected_delivery sC10 "o5" (.parsableIso 25) =
        (sC10, some .keyError) ∧
      update_order_expected_delivery sC10b "o6" (.parsableIso 25) =
        ({ sC10b with
            orders := sC10b.orders.set 0
              { ordModern with expected_delivery := some (.parsableIso 25) }
            changes := { sC10b.changes with
              orders := sC10b.changes.orders ++
                [.update_delivery "o6" (.parsableIso 20) (.parsableIso 25)] } },
          none) := by
  have h1 := C10_update_delivery sC10 "o5" (.parsableIso 25) 0 ordLegacy rfl rfl
    (fun j o2 hj _ => absurd hj (Nat.not_lt_zero j))
  have h2 := C10_update_delivery sC10b "o6" (.parsableIso 25) 0 ordModern rfl rfl
    (fun j o2 hj _ => absurd hj (Nat.not_lt_zero j))
  exact ⟨h1.1 rfl, h2.2 (.parsableIso 20) rfl⟩

namespace HeapModel

/-- Writing at one address leaves every other address unchanged. -/
theorem lookup_write_ne (h : Heap) (a : Addr) (n : Node) (x : Addr)
    (hx : x ≠ a) : lookup (write h a n) x = lookup h x := by
  unfold lookup write
  rw [List.find?_cons_of_neg _ (by simp [Ne.symm hx])]

/-- Every address a stored node references is below the bound. -/
theorem lookup_closed (bound : ℕ) (h : Heap) (hcl : closedBelow bound h)
    (a : Addr) (nd : Node) (hl : lookup h a = some nd) :
    ∀ x ∈ nodeRefs nd, x < bound := by
  unfold lookup at hl
  cases hf : h.find? (fun p => p.1 = a) with
  | none => rw [hf] at hl; cases hl
  | some p =>
    rw [hf] at hl
    cases hl
    exact fun x hx => (hcl p (List.mem_of_find?_eq_some hf)).2 x hx

/-- `copy.deepcopy` allocates only at fresh addresses: the returned root is
at or above the allocation cursor, the cursor strictly advances past it, and
every address below the old cursor reads exactly as before. -/
theorem copy_frame : ∀ f : ℕ,
    (∀ h nxt a h2 n2 a2, copyNode f h nxt a = some (h2, n2, a2) →
      nxt ≤ a2 ∧ a2 < n2 ∧ ∀ x, x < nxt → lookup h2 x = lookup h x) ∧
    (∀ h nxt l h2 n2 l2, copyList f h nxt l = some (h2, n2, l2) →
      nxt ≤ n2 ∧ ∀ x, x < nxt → lookup h2 x = lookup h x) ∧
    (∀ h nxt l h2 n2 l2, copyDict f h nxt l = some (h2, n2, l2) →
      nxt ≤ n2 ∧ ∀ x, x < nxt → lookup h2 x = lookup h x) := by
  intro f
  induction f with
  | zero =>
    refine ⟨?_, ?_, ?_⟩
    · intro h nxt a h2 n2 a2 hc; unfold copyNode at hc; cases hc
    · intro h nxt l h2 n2 l2 hc; unfold copyList at hc; cases hc
    · intro h nxt l h2 n2 l2 hc; unfold copyDict at hc; cases hc
  | succ f ih =>
    obtain ⟨ihN, ihL, ihD⟩ := ih
    refine ⟨?_, ?_, ?_⟩
    · intro h nxt a h2 n2 a2 hc
      unfold copyNode at hc
      split at hc
      · cases hc
      · cases hc
        refine ⟨Nat.le_refl _, Nat.lt_succ_self _, ?_⟩
        intro x hx
        exact lookup_write_ne h nxt _ x (Nat.ne_of_lt hx)
      · rename_i kids heq
        split at hc
        · cases hc
        · rename_i res heq2
          cases hc
          obtain ⟨hn1, hfr⟩ := ihL h nxt kids res.1 res.2.1 res.2.2 heq2
          refine ⟨hn1, Nat.lt_succ_self _, ?_⟩
          intro x hx
          rw [lookup_write_ne res.1 res.2.1 _ x
            (Nat.ne_of_lt (lt_of_lt_of_le hx hn1))]
          exact hfr x hx
      · rename_i kids heq
        split at hc
        · cases hc
        · rename_i res heq2
          cases hc
          obtain ⟨hn1, hfr⟩ := ihD h nxt kids res.1 res.2.1 res.2.2 heq2
          refine ⟨hn1, Nat.lt_succ_self _, ?_⟩
          intro x hx
          rw [lookup_write_ne res.1 res.2.1 _ x
            (Nat.ne_of_lt (lt_of_lt_of_le hx hn1))]
          exact hfr x hx
    · intro h nxt l h2 n2 l2 hc
      cases l with
      | nil =>
        unfold copyList at hc
        cases hc
        exact ⟨Nat.le_refl _, fun x _ => rfl⟩
      | cons a as =>
        unfold copyList at hc
        split at hc
        · cases hc
        · rename_i res1 heq1
          split at hc
          · cases hc
          · rename_i res2 heq2
            cases hc
            obtain ⟨ha2, hlt, hfr1⟩ :=
              ihN h nxt a res1.1 res1.2.1 res1.2.2 heq1
            obtain ⟨hn3, hfr2⟩ :=
              ihL res1.1 res1.2.1 as res2.1 res2.2.1 res2.2.2 heq2
            refine ⟨le_trans (le_trans ha2 (le_of_lt hlt)) hn3, ?_⟩
            intro x hx
            rw [hfr2 x (lt_trans (lt_of_lt_of_le hx ha2) hlt), hfr1 x hx]
    · intro h nxt l h2 n2 l2 hc
      cases l with
      | nil =>
        unfold copyDict at hc
        cases hc
        exact ⟨Nat.le_refl _, fun x _ => rfl⟩
      | cons kv kvs =>
        unfold copyDict at hc
        split at hc
        · cases hc
        · rename_i res1 heq1
          split at hc
          · cases hc
          · rename_i res2 heq2
            cases hc
            obtain ⟨ha2, hlt, hfr1⟩ :=
              ihN h nxt kv.2 res1.1 res1.2.1 res1.2.2 heq1
            obtain ⟨hn3, hfr2⟩ :=
              ihD res1.1 res1.2.1 kvs res2.1 res2.2.1 res2.2.2 heq2
            refine ⟨le_trans (le_trans ha2 (le_of_lt hlt)) hn3, ?_⟩
            intro x hx
            rw [hfr2 x (lt_trans (lt_of_lt_of_le hx ha2) hlt), hfr1 x hx]

/-- Extraction of a value rooted below the bound only reads addresses below
the bound, so it is invariant between heaps that agree there. -/
theorem extract_agree (bound : ℕ) (h h2 : Heap)
    (hcl : closedBelow bound h) (hag : agreeBelow bound h h2) :
    ∀ f : ℕ,
      (∀ a, a < bound → extractNode f h2 a = extractNode f h a) ∧
      (∀ l, (∀ x ∈ l, x < bound) → extractList f h2 l = extractList f h l) ∧
      (∀ l : List (String × Addr), (∀ x ∈ l, x.2 < bound) →
        extractDict f h2 l = extractDict f h l) := by
  intro f
  induction f with
  | zero => exact ⟨fun a _ => rfl, fun l _ => rfl, fun l _ => rfl⟩
  | succ f ih =>
    obtain ⟨ihN, ihL, ihD⟩ := ih
    refine ⟨?_, ?_, ?_⟩
    · intro a ha
      unfold extractNode
      rw [hag a ha]
      cases hl : lookup h a with
      | none => rfl
      | some nd =>
        cases nd with
        | prim v => rfl
        | lst kids =>
          show (extractList f h2 kids).map Tree.lst =
            (extractList f h kids).map Tree.lst
          rw [ihL kids (fun x hx =>
            lookup_closed bound h hcl a _ hl x (by simpa [nodeRefs] using hx))]
        | dict kids =>
          show (extractDict f h2 kids).map Tree.dict =
            (extractDict f h kids).map Tree.dict
          rw [ihD kids (fun x hx =>
            lookup_closed bound h hcl a _ hl x.2
              (by simp only [nodeRefs]; exact List.mem_map_of_mem Prod.snd hx))]
    · intro l hl
      cases l with
      | nil => rfl
      | cons a as =>
        unfold extractList
        rw [ihN a (hl a (by simp)), ihL as (fun x hx => hl x (by simp [hx]))]
    · intro l hl
      cases l with
      | nil => rfl
      | cons kv kvs =>
        unfold extractDict
        rw [ihN kv.2 (hl kv (by simp)),
          ihD kvs (fun x hx => hl x (by simp [hx]))]

/-- A batch of writes confined to addresses at or above the bound does not
change any read below the bound. -/
theorem lookup_writeAll (bound : ℕ) :
    ∀ (ws : List (Addr × Node)) (h : Heap), (∀ w ∈ ws, bound ≤ w.1) →
      ∀ x, x < bound → lookup (writeAll h ws) x = lookup h x := by
  intro ws
  induction ws with
  | nil => intro h _ x _; rfl
  | cons w ws ih =>
    intro h hall x hx
    unfold writeAll
    rw [ih (write h w.1 w.2) (fun u hu => hall u (by simp [hu])) x hx]
    exact lookup_write_ne h w.1 w.2 x
      (Nat.ne_of_lt (lt_of_lt_of_le hx (hall w (by simp))))

/-- C7: `get_suppliers` returns a deep copy living entirely at fresh
addresses (its root is at or past the allocation cursor), so any finite
batch of mutations performed on the snapshot — writes at fresh addresses —
leaves the value of the engine's internal structure untouched: a subsequent
read of the same root extracts the same value as if no mutation had
happened.  The argument is generic in the root, so it covers
`get_contracts`, `get_orders` and `get_market_conditions`, which deep-copy
other roots the same way. -/
theorem C7_deepcopy_isolation (e : PyEngine) (fuel fuel2 : ℕ)
    (e2 : PyEngine) (c : Addr) (ws : List (Addr × Node))
    (hcl : closedBelow e.nextAddr e.heap)
    (hroot : e.suppliersRoot < e.nextAddr)
    (hcopy : get_suppliers_copy e fuel = some (e2, c))
    (hws : ∀ w ∈ ws, e.nextAddr ≤ w.1) :
    e.nextAddr ≤ c ∧
      extractNode fuel2 (writeAll e2.heap ws) e.suppliersRoot =
        extractNode fuel2 e.heap e.suppliersRoot := by
  unfold get_suppliers_copy at hcopy
  cases hc : copyNode fuel e.heap e.nextAddr e.suppliersRoot with
  | none => rw [hc] at hcopy; cases hcopy
  | some res =>
    obtain ⟨h2, n2, c2⟩ := res
    rw [hc] at hcopy
    cases hcopy
    obtain ⟨hc2, hlt, hfr⟩ :=
      (copy_frame fuel).1 e.heap e.nextAddr e.suppliersRoot h2 n2 c hc
    refine ⟨hc2, ?_⟩
    have hag : agreeBelow e.nextAddr e.heap (writeAll h2 ws) := by
      intro x hx
      rw [lookup_writeAll e.nextAddr ws h2 hws x hx]
      exact hfr x hx
    exact (extract_agree e.nextAddr e.heap (writeAll h2 ws) hcl hag fuel2).1
      e.suppliersRoot hroot

end HeapModel

/-- Witness for C7: the concrete two-cell supplier graph of `engC7`; after
the copy, overwriting the snapshot's root (address 3) does not change what
the engine's root (address 0) extracts to. -/
theorem C7_deepcopy_isolation_witness :
    engC7.nextAddr ≤ 3 ∧
      HeapModel.extractNode 5
          (HeapModel.writeAll engC7copied.heap [(3, .lst [])])
          engC7.suppliersRoot =
        HeapModel.extractNode 5 engC7.heap engC7.suppliersRoot :=
  HeapModel.C7_deepcopy_isolation engC7 3 5 engC7copied 3 [(3, .lst [])]
    (by decide) (by decide) rfl (by decide)

end Sim
